import Mathlib

/-!
Shallow embedding of the `clapclient` repository (Python sources
`client.py`, `digikey.py`, `digikeyjson.py`, `streamlit_client.py`)
and verification of its specification claims.

Python dictionaries are modelled as association lists in insertion
order (inserting an existing key updates the value in place, keeping
its position, exactly as CPython dicts do).  HTTP and WebSocket
round trips are modelled by oracle functions supplied as parameters:
a catalog oracle maps a part number to the catalog response the
server would return, and a generation-service session is a pure
function of the two frames the server sends back.  Machine-level
concerns (actual sockets, JSON byte encoding) are outside the
embedding; the JSON values carried by the protocol are modelled by
an inductive `JValue` type with Python truthiness.
-/

/-- A Python `dict` with string keys and string values: an association
list in insertion order, no duplicate keys when built by `dinsert`. -/
abbrev Dict := List (String × String)

/-- `d[k] = v` on a Python dict: update the value in place when the key
exists (keeping its original position), otherwise append the pair. -/
def dinsert (d : Dict) (k v : String) : Dict :=
  if d.any (fun p => p.1 = k) then
    d.map (fun p => if p.1 = k then (k, v) else p)
  else d ++ [(k, v)]

/-- `d.get(k)` on a Python dict (first binding of `k`). -/
def dget? (d : Dict) (k : String) : Option String :=
  (d.find? (fun p => p.1 = k)).map (fun p => p.2)

/-- `d.get(k, dflt)` on a Python dict. -/
def dgetD (d : Dict) (k dflt : String) : String :=
  (dget? d k).getD dflt

/-- `list(d.keys())` on a Python dict. -/
def dkeys (d : Dict) : List String := d.map (fun p => p.1)

/-- `needle` is a prefix of `hay` on character lists. -/
def isPrefixChars : List Char → List Char → Bool
  | [], _ => true
  | _ :: _, [] => false
  | a :: as, b :: bs => a = b && isPrefixChars as bs

/-- Python `needle in hay` on character lists (contiguous run; the
empty needle always occurs). -/
def subChars (needle : List Char) : List Char → Bool
  | [] => isPrefixChars needle []
  | hay@(_ :: rest) => isPrefixChars needle hay || subChars needle rest

/-- Python `needle in hay` on strings. -/
def strIn (needle hay : String) : Bool :=
  subChars needle.toList hay.toList

/-- Splitter for `str.split(sep)`: scan left to right, cutting at each
occurrence of the (non-empty) separator.  The fuel argument is set to
more than the input length, so it never runs out. -/
def splitOnAuxL (sep : List Char) : Nat → List Char → List Char → List (List Char)
  | 0, cs, acc => [acc.reverse ++ cs]
  | fuel + 1, cs, acc =>
    match cs with
    | [] => [acc.reverse]
    | c :: rest =>
      if isPrefixChars sep cs then
        acc.reverse :: splitOnAuxL sep fuel (cs.drop sep.length) []
      else
        splitOnAuxL sep fuel rest (c :: acc)

/-- Python `s.split(sep)` for a non-empty separator. -/
def pySplit (sep s : String) : List String :=
  if sep.toList.isEmpty then [s]
  else (splitOnAuxL sep.toList (s.toList.length + 1) s.toList []).map String.mk

/-- Python whitespace (the characters `str.strip()` removes). -/
def isPySpace (c : Char) : Bool :=
  c = ' ' || c = '\t' || c = '\n' || c = '\r' || c = '\x0b' || c = '\x0c'

/-- Python `s.strip()`. -/
def pyStrip (s : String) : String :=
  String.mk (((s.toList.dropWhile isPySpace).reverse.dropWhile isPySpace).reverse)

/-- Python `s.upper()` (ASCII range, as all consumed names are). -/
def pyUpper (s : String) : String := String.mk (s.toList.map Char.toUpper)

/-- Python `s.lower()` (ASCII range, as all consumed names are). -/
def pyLower (s : String) : String := String.mk (s.toList.map Char.toLower)

/-- Lexicographic order on character lists by code point — the order
Python `sorted` uses on strings. -/
def lexLe : List Char → List Char → Bool
  | [], _ => true
  | _ :: _, [] => false
  | a :: as, b :: bs => if a = b then lexLe as bs else decide (a < b)

/-- Python string comparison `a <= b`. -/
def strLe (a b : String) : Bool := lexLe a.toList b.toList

/-- Ordered insert for `insertionSort`. -/
def sortInsert (x : String) : List String → List String
  | [] => [x]
  | y :: ys => if strLe x y then x :: y :: ys else y :: sortInsert x ys

/-- Sorting by `strLe`; on duplicate-free input this is exactly
Python `sorted`. -/
def insertionSort : List String → List String
  | [] => []
  | x :: xs => sortInsert x (insertionSort xs)

/-!
## Generation-service protocol model

A session of `client.py` `main` or `streamlit_client.py`
`send_json_to_llm` is a pure function of the two JSON frames the
server sends back (the handshake reply and the request reply): the
client code is a straight line with two `recv` calls.  The session is
embedded as the list of observable events it performs, in order.
-/

/-- A JSON value as produced by `json.loads`, with Python truthiness. -/
inductive JValue where
  | null : JValue
  | bool (b : Bool) : JValue
  | num (n : Int) : JValue
  | str (s : String) : JValue
  | arr (elems : List JValue) : JValue
  | obj (fields : List (String × JValue)) : JValue

/-- Python truthiness of a decoded JSON value (`if x:`). -/
def jTruthy : JValue → Bool
  | .null => false
  | .bool b => b
  | .num n => n ≠ 0
  | .str s => s ≠ ""
  | .arr elems => !elems.isEmpty
  | .obj fields => !fields.isEmpty

/-- `x.get(k)` on a decoded JSON object (`None` when absent; the source
only ever calls `.get` on objects that decoded from a dict, and a
non-dict frame would raise before the comparison, which the abort
theorems absorb into the failure branch). -/
def jGet : JValue → String → Option JValue
  | .obj fields, k => (fields.find? (fun p => p.1 = k)).map (fun p => p.2)
  | _, _ => none

/-- Python `x.get(k) == s` for a string literal `s`. -/
def jGetIsStr (j : JValue) (k s : String) : Bool :=
  match jGet j k with
  | some (.str t) => t = s
  | _ => false

/-- Python `if x.get(k):` — truthiness of an optional value (`None`
is falsy). -/
def jGetTruthy (j : JValue) (k : String) : Bool :=
  match jGet j k with
  | some v => jTruthy v
  | none => false

/-- A frame sent by a client on the WebSocket. -/
inductive Msg where
  | initMsg (client version : String) : Msg
  | reqMsg (id method : String) : Msg

/-- An observable step of a client session. -/
inductive Event where
  | sendMsg (m : Msg) : Event
  | recvMsg (j : JValue) : Event
  | raiseExc (text : String) : Event
  | raiseWithPayload (text : String) (j : JValue) : Event
  | errorPrint (j : JValue) : Event
  | successResult (data : Option JValue) : Event
  | closeConn : Event

/-- `max_size` passed to `websockets.connect` in `client.py` line 7. -/
def client_max_size : Nat := 2 ^ 23

/-- `max_size` passed to `websockets.connect` in `streamlit_client.py`
line 173. -/
def streamlit_max_size : Nat := 2 ^ 23

/-- The session of `main` in `client.py`, as the ordered list of its
observable events, given the two frames the server answers with.  The
`assert` on line 15 raises `AssertionError` when the handshake reply
`type` is not `"ready"`; the `async with` block closes the connection
on both normal exit and exception. -/
def clientRun (ready resp : JValue) : List Event :=
  [Event.sendMsg (Msg.initMsg "sample-client" "0.1"), Event.recvMsg ready] ++
  (if jGetIsStr ready "type" "ready" then
    [Event.sendMsg (Msg.reqMsg "1" "llm.generate"), Event.recvMsg resp] ++
    (if jGetIsStr resp "type" "result" && jGetTruthy resp "ok" then
      [Event.successResult (jGet resp "data")]
    else
      [Event.errorPrint resp]) ++
    [Event.closeConn]
  else
    [Event.raiseExc "AssertionError", Event.closeConn])

/-- The session of `send_json_to_llm` in `streamlit_client.py`, as the
ordered list of its observable events, given the two frames the server
answers with.  A non-`ready` handshake reply raises `RuntimeError`
carrying the reply; a non-`result`/non-`ok` response raises
`RuntimeError` carrying the response. -/
def send_json_to_llm (json_filename : String) (ready resp : JValue) : List Event :=
  [Event.sendMsg (Msg.initMsg "streamlit-client" "0.1"), Event.recvMsg ready] ++
  (if jGetIsStr ready "type" "ready" then
    [Event.sendMsg (Msg.reqMsg ("analyze-" ++ json_filename) "llm.generate"),
      Event.recvMsg resp] ++
    (if jGetIsStr resp "type" "result" && jGetTruthy resp "ok" then
      [Event.successResult (jGet resp "data")]
    else
      [Event.raiseWithPayload "Server error" resp]) ++
    [Event.closeConn]
  else
    [Event.raiseWithPayload "Unexpected handshake response" ready, Event.closeConn])

/-- Number of `request` frames sent during a session. -/
def countReqSends (evts : List Event) : Nat :=
  evts.countP (fun e => match e with
    | .sendMsg (.reqMsg _ _) => true
    | _ => false)

/-- Number of frames received during a session. -/
def countRecvs (evts : List Event) : Nat :=
  evts.countP (fun e => match e with
    | .recvMsg _ => true
    | _ => false)

/-- Whether a session consumed `data` from a `result` response. -/
def consumedResult (evts : List Event) : Bool :=
  evts.any (fun e => match e with
    | .successResult _ => true
    | _ => false)

/-- Whether a session surfaced `j` as an error (printed or raised). -/
def surfacedError (evts : List Event) (j : JValue) : Prop :=
  Event.errorPrint j ∈ evts ∨ ∃ t, Event.raiseWithPayload t j ∈ evts

/-- Whether a session raised an exception. -/
def raisedExc (evts : List Event) : Prop :=
  (∃ t, Event.raiseExc t ∈ evts) ∨ ∃ t j, Event.raiseWithPayload t j ∈ evts

/-!
## Catalog (DigiKey) model

`fetch_digikey_data` (digikeyjson.py) and `Web_inteface` (digikey.py)
each perform one token POST and then one keyword-search POST per part
number.  The search round trips are modelled by an oracle from part
number to the catalog response; the token round trip by its status
code and body text.  `Web_inteface`'s oracle is `Except`-valued so
that a raising HTTP call (or any other exception inside the loop) is
representable; its whole body runs under `try/except`.
-/

/-- One entry of a product's `Parameters` list: the consumed fields
`ParameterText` and `ValueText`. -/
structure Parameter where
  parameterText : String
  valueText : String

/-- The consumed fields of one entry of a catalog response's
`Products` list. -/
structure Product where
  manufacturerName : String
  productStatus : String
  parameters : List Parameter

/-- A catalog keyword-search response: HTTP status code, body text
(used in error messages) and the decoded `Products` field (`none`
when the key is absent from the JSON body). -/
structure CatalogResponse where
  statusCode : Nat
  text : String
  products : Option (List Product)

/-- The record `fetch_digikey_data` appends for one part number
(digikeyjson.py lines 27-45): an error placeholder on non-200 status,
an error placeholder when `Products` is absent or empty (both are
falsy for `result.get('Products')`), and otherwise the spec dict of
the first product, extended by its parameters in order. -/
def fetchRecord (api : String → CatalogResponse) (part_number : String) : Dict :=
  let r := api part_number
  if r.statusCode ≠ 200 then
    [("Part Number", pyUpper part_number), ("Error", "Search error: " ++ r.text)]
  else
    match r.products with
    | none => [("Part Number", pyUpper part_number), ("Error", "No product found")]
    | some [] => [("Part Number", pyUpper part_number), ("Error", "No product found")]
    | some (product :: _) =>
      (product.parameters.foldl
        (fun d prm => dinsert d prm.parameterText prm.valueText)
        [("Part Number", pyUpper part_number),
          ("Mfr", product.manufacturerName),
          ("Part Status", product.productStatus)])

/-- The `for part_number in part_numbers` loop of `fetch_digikey_data`:
every branch appends exactly one record to `all_specs` and continues. -/
def fetchLoop (api : String → CatalogResponse) :
    List String → List Dict → List Dict
  | [], all_specs => all_specs
  | part_number :: rest, all_specs =>
    fetchLoop api rest (all_specs ++ [fetchRecord api part_number])

/-- `fetch_digikey_data` (digikeyjson.py lines 6-49): raises on a
failed token exchange, otherwise processes every part number and
writes `output_filename + ".json"`; the result is the written
filename together with the array written to it. -/
def fetch_digikey_data (tokenStatus : Nat) (tokenText : String)
    (api : String → CatalogResponse) (part_numbers : List String)
    (output_filename : String) : Except String (String × List Dict) :=
  if tokenStatus ≠ 200 then
    .error ("Token error: " ++ tokenText)
  else
    .ok (output_filename ++ ".json", fetchLoop api part_numbers [])

/-- The spec dict `Web_inteface` appends for one found product
(digikey.py lines 57-77): `Part Number`, `Mfr`, `Part Status`, then
the parameters in order. -/
def webRecord (part : String) (product : Product) : Dict :=
  product.parameters.foldl
    (fun d e => dinsert d e.parameterText e.valueText)
    [("Part Number", pyUpper part),
      ("Mfr", product.manufacturerName),
      ("Part Status", product.productStatus)]

/-- The `for part in range(len(part_list))` loop of `Web_inteface`
(digikey.py lines 48-81).  The search call itself may raise (the
oracle is `Except`-valued); on 200 status, `result['Products']` is a
plain indexing that raises `KeyError` when the key is absent; when
`Products` is `[]` the line `miss.append` is a bound-method
expression that is never called, so nothing is appended and the loop
continues; only a found product appends a spec dict; a non-200 status
prints and continues. -/
def webLoop (api : String → Except String CatalogResponse) :
    List String → List Dict → Except String (List Dict)
  | [], fin_11 => .ok fin_11
  | part :: rest, fin_11 =>
    match api part with
    | .error e => .error e
    | .ok r =>
      if r.statusCode = 200 then
        match r.products with
        | none => .error "KeyError: 'Products'"
        | some [] => webLoop api rest fin_11
        | some (product :: _) => webLoop api rest (fin_11 ++ [webRecord part product])
      else webLoop api rest fin_11

/-- `[p.strip() for p in lis1.split(',') if p.strip()]`
(digikey.py line 13). -/
def webParts (lis1 : String) : List String :=
  ((pySplit "," lis1).map pyStrip).filter (fun p => p ≠ "")

/-- Deduplicate keeping the first occurrence of each element
(`list(dict.fromkeys(...))`, digikey.py line 91). -/
def dedupFirstSeen (l : List String) : List String :=
  l.foldl (fun acc a => if acc.contains a then acc else acc ++ [a]) []

/-- `all_attributes` of `Web_inteface` (digikey.py lines 88-91): the
keys of all spec dicts concatenated in order, first occurrences kept. -/
def allAttributes (fin_11 : List Dict) : List String :=
  dedupFirstSeen (fin_11.foldl (fun acc d => acc ++ dkeys d) [])

/-- Insert-or-overwrite on a Python dict of column lists
(`comparison_data[column_name] = ...`, digikey.py line 109, and
`data[part_num] = ...`, streamlit_client.py line 278): an existing
key keeps its position and gets the new value, a new key is
appended. -/
def colInsert (d : List (String × List String)) (k : String) (v : List String) :
    List (String × List String) :=
  if d.any (fun p => p.1 = k) then
    d.map (fun p => if p.1 = k then (k, v) else p)
  else d ++ [(k, v)]

/-- Column-name disambiguation state (`used_names`, digikey.py lines
97-107): on a repeated part name the column is suffixed with the
running count.  The suffixed name is not itself recorded in
`used_names`, so it can collide with a later part's own name. -/
def columnName (used : List (String × Nat)) (part_name : String) :
    String × List (String × Nat) :=
  match used.find? (fun p => p.1 = part_name) with
  | some p =>
    (part_name ++ " (" ++ toString (p.2 + 1) ++ ")",
      used.map (fun q => if q.1 = part_name then (part_name, p.2 + 1) else q))
  | none => (part_name, used ++ [(part_name, 1)])

/-- The `for idx, specs in enumerate(fin_11)` loop of `Web_inteface`
(digikey.py lines 98-109), threading the `comparison_data` Python
dict: each record's cells `specs.get(attr, "-")` are assigned under
its disambiguated column name, overwriting in place when that name is
already a key of the dict. -/
def buildColumns (attrs : List String) :
    List Dict → Nat → List (String × Nat) → List (String × List String) →
      List (String × List String)
  | [], _, _, comparison_data => comparison_data
  | specs :: rest, idx, used, comparison_data =>
    let part_name := dgetD specs "Part Number" ("Component " ++ toString (idx + 1))
    let named := columnName used part_name
    buildColumns attrs rest (idx + 1) named.2
      (colInsert comparison_data named.1
        (attrs.map (fun attr => dgetD specs attr "-")))

/-- The comparison table of `Web_inteface` (digikey.py lines 84-112):
the `comparison_data` dict starts with the `Attribute` entry holding
the attribute rows, then one assignment per record — so a column name
colliding with an earlier one (or a part named `"Attribute"`)
overwrites that entry, as the Python dict does. -/
def buildTable (fin_11 : List Dict) : List (String × List String) :=
  buildColumns (allAttributes fin_11) fin_11 0 []
    [("Attribute", allAttributes fin_11)]

/-- `pd.DataFrame()` returned when no part yielded a spec dict. -/
def emptyTable : List (String × List String) := []

/-- The body of `Web_inteface` up to the spec-dict list: a failed
token exchange leaves `access_token = None`, skipping the whole
search loop (digikey.py lines 25-33). -/
def webBody (tokenStatus : Nat) (api : String → Except String CatalogResponse)
    (lis1 : String) : Except String (List Dict) :=
  if tokenStatus = 200 then webLoop api (webParts lis1) [] else .ok []

/-- `Web_inteface` (digikey.py lines 11-115): the whole body runs
under `try/except Exception as e`, which turns any exception into the
returned string `"ERRor :" + str(e)`; an empty spec-dict list returns
the empty `DataFrame`. -/
def Web_inteface (tokenStatus : Nat) (api : String → Except String CatalogResponse)
    (lis1 : String) : Sum (List (String × List String)) String :=
  match webBody tokenStatus api lis1 with
  | .error e => .inr ("ERRor :" ++ e)
  | .ok [] => .inl emptyTable
  | .ok fin_11 => .inl (buildTable fin_11)

/-!
## Streamlit comparison-table and justification-parsing model

The per-file block of `streamlit_client.py` (lines 258-299) builds a
parameter table with `all_params = sorted(set(...))` and one dict
entry per component, then parses the LLM reply into per-parameter
justifications.
-/

/-- `all_params = sorted(set(...))` over the keys of every component
dict (streamlit_client.py lines 269-272): set semantics then Python
`sorted`, i.e. lexicographic by code point. -/
def streamlitParams (json_content : List Dict) : List String :=
  insertionSort (dedupFirstSeen (json_content.foldl (fun acc d => acc ++ dkeys d) []))

/-- The `for idx, component in enumerate(json_content)` column loop
(streamlit_client.py lines 276-278). -/
def streamlitColumns (params : List String) :
    List Dict → Nat → List (String × List String) → List (String × List String)
  | [], _, data => data
  | component :: rest, idx, data =>
    let part_num := dgetD component "Part Number" ("Component " ++ toString (idx + 1))
    streamlitColumns params rest (idx + 1)
      (colInsert data part_num (params.map (fun param => dgetD component param "-")))

/-- The parameter table of the streamlit per-file block
(streamlit_client.py lines 268-278): rows are the sorted parameter
set, and the `data` dict starts with the `Parameter` column. -/
def streamlitTable (json_content : List Dict) : List (String × List String) :=
  streamlitColumns (streamlitParams json_content) json_content 0
    [("Parameter", streamlitParams json_content)]

/-- `line.strip().replace('|','').replace('-','').replace(' ','').replace(':','') == ''`
(streamlit_client.py line 32): the separator-line test. -/
def isSeparatorLine (line : String) : Bool :=
  ((pyStrip line).toList.filter
    (fun c => !(c = '|' || c = '-' || c = ' ' || c = ':'))).isEmpty

/-- `[p.strip() for p in line.split('|')]` then dropping empties
(streamlit_client.py lines 36-38). -/
def tableRowParts (line : String) : List String :=
  ((pySplit "|" line).map pyStrip).filter (fun p => p ≠ "")

/-- One line of the markdown-table scan of `parse_llm_justifications`
(streamlit_client.py lines 28-55), acting on the state
`(justification_map, table_found)`. -/
def tableStep (st : Dict × Bool) (line : String) : Dict × Bool :=
  if line.toList.contains '|' then
    if isSeparatorLine line then st
    else
      match tableRowParts line with
      | p0 :: p1 :: _ =>
        if pyLower p0 = "parameter" || pyLower p0 = "parameters" then (st.1, true)
        else if st.2 then
          let param_name := pyStrip p0
          let justification := pyStrip p1
          if param_name ≠ "" && justification ≠ "" then
            (dinsert st.1 param_name justification, st.2)
          else st
        else st
      | _ => st
  else st

/-- One line of the `**Parameter:**` fallback scan
(streamlit_client.py lines 60-73), acting on the state
`(justification_map, current_param, current_justification)`; an empty
`current_param` is falsy in Python, disabling accumulation. -/
def starStep (st : Dict × String × List String) (line0 : String) :
    Dict × String × List String :=
  let line := pyStrip line0
  if isPrefixChars "**".toList line.toList && strIn "**" (String.mk (line.toList.drop 2)) then
    let flushed :=
      if st.2.1 ≠ "" && !st.2.2.isEmpty then
        dinsert st.1 st.2.1 (String.intercalate " " st.2.2)
      else st.1
    (flushed,
      pyStrip (String.mk (((pySplit "**" line).getD 1 "").toList.filter (fun c => c ≠ ':'))),
      [])
  else if st.2.1 ≠ "" && line ≠ "" then
    (st.1, st.2.1, st.2.2 ++ [line])
  else st

/-- The `justification_map` built by `parse_llm_justifications`
(streamlit_client.py lines 19-76): the markdown-table scan, then the
`**` fallback scan when the table scan produced nothing, flushing the
trailing parameter after the loop. -/
def parseJustMap (justification_text : String) : Dict :=
  let lines := pySplit "\n" justification_text
  let scanned := lines.foldl tableStep ([], false)
  if scanned.1.isEmpty then
    let fb := lines.foldl starStep ([], "", [])
    if fb.2.1 ≠ "" && !fb.2.2.isEmpty then
      dinsert fb.1 fb.2.1 (String.intercalate " " fb.2.2)
    else fb.1
  else scanned.1

/-- The per-parameter lookup of `parse_llm_justifications`
(streamlit_client.py lines 84-109): exact key, then first
case-insensitive key, then first key related by substring either way,
else `"-"`. -/
def matchOne (m : Dict) (param : String) : String :=
  match dget? m param with
  | some v => v
  | none =>
    match m.find? (fun kv => pyLower kv.1 = pyLower param) with
    | some kv => kv.2
    | none =>
      match m.find? (fun kv =>
          strIn (pyLower kv.1) (pyLower param) || strIn (pyLower param) (pyLower kv.1)) with
      | some kv => kv.2
      | none => "-"

/-- `parse_llm_justifications` (streamlit_client.py lines 17-116):
builds the justification map, then appends exactly one entry per
element of `all_params`. -/
def parse_llm_justifications (justification_text : String)
    (all_params : List String) : List String :=
  all_params.map (matchOne (parseJustMap justification_text))

/-- The key relations under which `matchOne` can select a binding:
exact, case-insensitive, or substring either way. -/
def keyMatches (key param : String) : Bool :=
  key = param || pyLower key = pyLower param ||
    strIn (pyLower key) (pyLower param) || strIn (pyLower param) (pyLower key)

/-- The per-file `try/except` of the streamlit batch loop
(streamlit_client.py lines 258-299): each file's analysis runs
isolated, an exception is reported as an inline message and the loop
moves on to the next file. -/
def streamlitPerFile (analyze : String → Except String (List (String × List String)))
    (fname : String) : Sum (List (String × List String)) String :=
  match analyze fname with
  | .ok df => .inl df
  | .error exc => .inr ("Error analyzing " ++ fname ++ ": " ++ exc)

/-- The `for fname in json_files` loop: every file yields exactly one
outcome, errors included. -/
def streamlitFileLoop (analyze : String → Except String (List (String × List String)))
    (json_files : List String) : List (Sum (List (String × List String)) String) :=
  json_files.map (streamlitPerFile analyze)

/-- The parameter list the success branch of `fetch_digikey_data`
folds into the spec dict for a given response: empty unless the
status is 200 and a product was found. -/
def usedParameters (r : CatalogResponse) : List Parameter :=
  if r.statusCode ≠ 200 then []
  else
    match r.products with
    | some (product :: _) => product.parameters
    | _ => []

/-!
## Helper lemmas
-/

theorem find?_update_self (d : Dict) (k v : String) :
    (d.map (fun p => if p.1 = k then (k, v) else p)).find? (fun p => p.1 = k)
      = (d.find? (fun p => p.1 = k)).map (fun _ => (k, v)) := by
  induction d with
  | nil => rfl
  | cons p t ih =>
    by_cases hpk : p.1 = k
    · simp only [List.map_cons, if_pos hpk]
      rw [List.find?_cons_of_pos _ (by simp), List.find?_cons_of_pos _ (by simp [hpk])]
      rfl
    · simp only [List.map_cons, if_neg hpk]
      rw [List.find?_cons_of_neg _ (by simp [hpk]), List.find?_cons_of_neg _ (by simp [hpk])]
      exact ih

theorem find?_update_ne (d : Dict) (k v k' : String) (h : k' ≠ k) :
    (d.map (fun p => if p.1 = k then (k, v) else p)).find? (fun p => p.1 = k')
      = d.find? (fun p => p.1 = k') := by
  induction d with
  | nil => rfl
  | cons p t ih =>
    by_cases hpk : p.1 = k
    · have hne : p.1 ≠ k' := fun hc => h (hc ▸ hpk)
      simp only [List.map_cons, if_pos hpk]
      rw [List.find?_cons_of_neg _ (by simp [Ne.symm h]),
        List.find?_cons_of_neg _ (by simp [hne])]
      exact ih
    · simp only [List.map_cons, if_neg hpk]
      by_cases hpk' : p.1 = k'
      · rw [List.find?_cons_of_pos _ (by simp [hpk']), List.find?_cons_of_pos _ (by simp [hpk'])]
      · rw [List.find?_cons_of_neg _ (by simp [hpk']), List.find?_cons_of_neg _ (by simp [hpk'])]
        exact ih

theorem find?_none_of_any_false (d : Dict) (k : String)
    (hany : ¬ d.any (fun p => p.1 = k) = true) :
    d.find? (fun p => p.1 = k) = none := by
  refine List.find?_eq_none.mpr ?_
  intro x hmem hpx
  exact hany (List.any_eq_true.mpr ⟨x, hmem, hpx⟩)

theorem dget?_insert_self (d : Dict) (k v : String) :
    dget? (dinsert d k v) k = some v := by
  unfold dinsert dget?
  by_cases hany : d.any (fun p => p.1 = k) = true
  · rw [if_pos hany, find?_update_self]
    rcases hx : d.find? (fun p => p.1 = k) with _ | x
    · rcases List.any_eq_true.mp hany with ⟨x, hmem, hpx⟩
      exact absurd (List.find?_eq_none.mp hx x hmem) (by simp [hpx])
    · rw [hx]
      rfl
  · rw [if_neg hany, List.find?_append, find?_none_of_any_false d k hany]
    rw [List.find?_cons_of_pos _ (by simp)]
    rfl

theorem dget?_insert_ne (d : Dict) (k v k' : String) (h : k' ≠ k) :
    dget? (dinsert d k v) k' = dget? d k' := by
  unfold dinsert dget?
  by_cases hany : d.any (fun p => p.1 = k) = true
  · rw [if_pos hany, find?_update_ne d k v k' h]
  · rw [if_neg hany, List.find?_append]
    have hsing : [(k, v)].find? (fun p => p.1 = k') = none := by
      rw [List.find?_cons_of_neg _ (by simp [Ne.symm h])]
      rfl
    rw [hsing, Option.or_none]

theorem dget?_insert_isSome (d : Dict) (k v k' : String)
    (h : (dget? d k').isSome) : (dget? (dinsert d k v) k').isSome := by
  by_cases hk : k' = k
  · subst hk; rw [dget?_insert_self]; rfl
  · rw [dget?_insert_ne d k v k' hk]; exact h

theorem dget?_eq_none_of_not_mem_keys (d : Dict) (k : String)
    (h : k ∉ dkeys d) : dget? d k = none := by
  unfold dget?
  have : d.find? (fun p => p.1 = k) = none := by
    refine List.find?_eq_none.mpr ?_
    intro x hmem hpx
    exact h (by
      unfold dkeys
      exact List.mem_map.mpr ⟨x, hmem, by simpa using hpx⟩)
  simp [this]

theorem dgetD_of_not_mem_keys (d : Dict) (k dflt : String)
    (h : k ∉ dkeys d) : dgetD d k dflt = dflt := by
  unfold dgetD
  rw [dget?_eq_none_of_not_mem_keys d k h]
  rfl

theorem isSome_dget?_of_mem_keys (d : Dict) (k : String)
    (h : k ∈ dkeys d) : (dget? d k).isSome := by
  unfold dget?
  rcases List.mem_map.mp h with ⟨p, hmem, hfst⟩
  rcases hfind : d.find? (fun q => q.1 = k) with _ | x
  · exact absurd (List.find?_eq_none.mp hfind p hmem) (by simp [hfst])
  · simp [hfind]

/-!
## Claim theorems
-/

/-- C8: every generation-service connection opened by the clients
(`client.py` line 7, `streamlit_client.py` line 173) is configured
with `max_size = 2^23`, which is at least 8 MiB (`8 * 2^20` bytes). -/
theorem C8_max_frame_size :
    client_max_size = 2 ^ 23 ∧ streamlit_max_size = 2 ^ 23 ∧
    8 * 2 ^ 20 ≤ client_max_size ∧ 8 * 2 ^ 20 ≤ streamlit_max_size := by
  refine ⟨rfl, rfl, ?_, ?_⟩ <;> decide

/-- C4: in both clients, if the handshake reply's `type` is anything
other than `"ready"`, the session raises (an `AssertionError` in
`client.py`, a `RuntimeError` in `streamlit_client.py`) and closes,
and no `request` frame is ever sent; conversely a `request` frame is
sent only when the handshake reply was `ready`. -/
theorem C4_handshake_abort (fn : String) (ready resp : JValue)
    (h : jGetIsStr ready "type" "ready" = false) :
    clientRun ready resp =
      [Event.sendMsg (Msg.initMsg "sample-client" "0.1"), Event.recvMsg ready,
        Event.raiseExc "AssertionError", Event.closeConn] ∧
    send_json_to_llm fn ready resp =
      [Event.sendMsg (Msg.initMsg "streamlit-client" "0.1"), Event.recvMsg ready,
        Event.raiseWithPayload "Unexpected handshake response" ready, Event.closeConn] ∧
    countReqSends (clientRun ready resp) = 0 ∧
    countReqSends (send_json_to_llm fn ready resp) = 0 ∧
    raisedExc (clientRun ready resp) ∧
    raisedExc (send_json_to_llm fn ready resp) := by
  refine ⟨?_, ?_, ?_, ?_, ?_, ?_⟩ <;>
    simp [clientRun, send_json_to_llm, h, countReqSends, raisedExc,
      List.countP_cons, List.countP_nil]

/-- C4 witness: a concrete non-`ready` handshake reply aborts both
sessions before any request. -/
theorem C4_handshake_abort_witness :
    clientRun (JValue.obj [("type", JValue.str "error")]) JValue.null =
      [Event.sendMsg (Msg.initMsg "sample-client" "0.1"),
        Event.recvMsg (JValue.obj [("type", JValue.str "error")]),
        Event.raiseExc "AssertionError", Event.closeConn] ∧
    countReqSends (clientRun (JValue.obj [("type", JValue.str "error")]) JValue.null) = 0 := by
  have h := C4_handshake_abort "f" (JValue.obj [("type", JValue.str "error")]) JValue.null rfl
  exact ⟨h.1, h.2.2.1⟩

/-- C5: no session of either client ever sends more than one
`request` frame; and whenever the handshake succeeded, exactly one
`request` frame is sent and exactly two frames (the `ready` reply and
the result reply) are received, with the connection closed as the
last step — in particular every successful invocation exchanges
exactly one request/response pair after the handshake and then tears
the connection down. -/
theorem C5_one_request_per_connection (fn : String) (ready resp : JValue) :
    countReqSends (clientRun ready resp) ≤ 1 ∧
    countReqSends (send_json_to_llm fn ready resp) ≤ 1 ∧
    (clientRun ready resp).getLast? = some Event.closeConn ∧
    (send_json_to_llm fn ready resp).getLast? = some Event.closeConn ∧
    (jGetIsStr ready "type" "ready" = true →
      countReqSends (clientRun ready resp) = 1 ∧
      countReqSends (send_json_to_llm fn ready resp) = 1 ∧
      countRecvs (clientRun ready resp) = 2 ∧
      countRecvs (send_json_to_llm fn ready resp) = 2) := by
  by_cases hr : jGetIsStr ready "type" "ready" = true
  · by_cases hok : (jGetIsStr resp "type" "result" && jGetTruthy resp "ok") = true
    · refine ⟨?_, ?_, ?_, ?_, fun _ => ⟨?_, ?_, ?_, ?_⟩⟩ <;>
        simp [clientRun, send_json_to_llm, hr, hok, countReqSends, countRecvs,
          List.countP_cons, List.countP_nil]
    · refine ⟨?_, ?_, ?_, ?_, fun _ => ⟨?_, ?_, ?_, ?_⟩⟩ <;>
        simp [clientRun, send_json_to_llm, hr, hok, countReqSends, countRecvs,
          List.countP_cons, List.countP_nil]
  · have hr' : jGetIsStr ready "type" "ready" = false := by
      revert hr
      cases jGetIsStr ready "type" "ready" <;> simp
    refine ⟨?_, ?_, ?_, ?_, fun hc => absurd hc hr⟩ <;>
      simp [clientRun, send_json_to_llm, hr', countReqSends, countRecvs,
        List.countP_cons, List.countP_nil]

/-- C5 witness: a concrete successful session sends exactly one
request, receives exactly two frames and closes last. -/
theorem C5_one_request_per_connection_witness :
    countReqSends (clientRun (JValue.obj [("type", JValue.str "ready")])
      (JValue.obj [("type", JValue.str "result"), ("ok", JValue.bool true)])) = 1 ∧
    countRecvs (clientRun (JValue.obj [("type", JValue.str "ready")])
      (JValue.obj [("type", JValue.str "result"), ("ok", JValue.bool true)])) = 2 := by
  have h := (C5_one_request_per_connection "f"
    (JValue.obj [("type", JValue.str "ready")])
    (JValue.obj [("type", JValue.str "result"), ("ok", JValue.bool true)])).2.2.2.2 rfl
  exact ⟨h.1, h.2.2.1⟩

/-- C3 (amended): after a successful handshake, both clients consume
`data` as the result exactly when the response's `type` equals
`"result"` and its `ok` field is truthy in Python's sense (so e.g.
`ok = 1` counts as success, not only `ok = true`); otherwise the
exchange is treated as failed and the response payload is surfaced
verbatim — `streamlit_client.py` by raising `RuntimeError` with the
payload, `client.py` by printing the payload without raising. -/
theorem C3_result_dispatch (fn : String) (ready resp : JValue)
    (h : jGetIsStr ready "type" "ready" = true) :
    (consumedResult (clientRun ready resp)
      = (jGetIsStr resp "type" "result" && jGetTruthy resp "ok")) ∧
    (consumedResult (send_json_to_llm fn ready resp)
      = (jGetIsStr resp "type" "result" && jGetTruthy resp "ok")) ∧
    ((jGetIsStr resp "type" "result" && jGetTruthy resp "ok") = false →
      surfacedError (clientRun ready resp) resp ∧
      surfacedError (send_json_to_llm fn ready resp) resp ∧
      raisedExc (send_json_to_llm fn ready resp) ∧
      ¬ raisedExc (clientRun ready resp)) ∧
    ((jGetIsStr resp "type" "result" && jGetTruthy resp "ok") = true →
      Event.successResult (jGet resp "data") ∈ clientRun ready resp ∧
      Event.successResult (jGet resp "data") ∈ send_json_to_llm fn ready resp) := by
  by_cases hok : (jGetIsStr resp "type" "result" && jGetTruthy resp "ok") = true
  · refine ⟨?_, ?_, fun hc => absurd hok (by rw [hc]; simp), fun _ => ⟨?_, ?_⟩⟩ <;>
      simp [clientRun, send_json_to_llm, h, hok, consumedResult]
  · have hok' : (jGetIsStr resp "type" "result" && jGetTruthy resp "ok") = false := by
      revert hok
      cases jGetIsStr resp "type" "result" && jGetTruthy resp "ok" <;> simp
    refine ⟨?_, ?_, fun _ => ⟨?_, ?_, ?_, ?_⟩, fun hc => absurd hc hok⟩ <;>
      simp [clientRun, send_json_to_llm, h, hok', consumedResult, surfacedError, raisedExc]

/-- C3 counterexample: with a response whose `ok` field is the JSON
number `1` — a value other than `true` — `client.py` consumes the
result instead of treating the exchange as failed; and with a plain
failure response, `client.py` prints the payload but raises nothing,
so the claim as stated (failure whenever `ok` is not `true`, raising
on failure at every call site) is false on the code. -/
theorem C3_counterexample :
    jGet (JValue.obj [("type", JValue.str "result"), ("ok", JValue.num 1)]) "ok"
      = some (JValue.num 1) ∧
    JValue.num 1 ≠ JValue.bool true ∧
    consumedResult (clientRun (JValue.obj [("type", JValue.str "ready")])
      (JValue.obj [("type", JValue.str "result"), ("ok", JValue.num 1)])) = true ∧
    ¬ surfacedError (clientRun (JValue.obj [("type", JValue.str "ready")])
      (JValue.obj [("type", JValue.str "result"), ("ok", JValue.num 1)]))
      (JValue.obj [("type", JValue.str "result"), ("ok", JValue.num 1)]) ∧
    Event.errorPrint (JValue.obj [("type", JValue.str "error")]) ∈
      clientRun (JValue.obj [("type", JValue.str "ready")])
        (JValue.obj [("type", JValue.str "error")]) ∧
    ¬ raisedExc (clientRun (JValue.obj [("type", JValue.str "ready")])
      (JValue.obj [("type", JValue.str "error")])) := by
  refine ⟨rfl, fun hc => JValue.noConfusion hc, rfl, ?_, ?_, ?_⟩ <;>
    simp [clientRun, surfacedError, raisedExc, jGetIsStr, jGet, jGetTruthy, jTruthy,
      List.find?]

/-- C3 witness: the dispatch theorem applied to a concrete failing
response. -/
theorem C3_result_dispatch_witness :
    surfacedError (clientRun (JValue.obj [("type", JValue.str "ready")])
      (JValue.obj [("type", JValue.str "error")]))
      (JValue.obj [("type", JValue.str "error")]) ∧
    consumedResult (clientRun (JValue.obj [("type", JValue.str "ready")])
      (JValue.obj [("type", JValue.str "error")])) = false := by
  have h := C3_result_dispatch "f" (JValue.obj [("type", JValue.str "ready")])
    (JValue.obj [("type", JValue.str "error")]) rfl
  exact ⟨(h.2.2.1 rfl).1, by rw [h.1]; rfl⟩

theorem fetchLoop_eq_map (api : String → CatalogResponse) :
    ∀ (l : List String) (acc : List Dict),
      fetchLoop api l acc = acc ++ l.map (fetchRecord api)
  | [], acc => by simp [fetchLoop]
  | pn :: rest, acc => by
    rw [fetchLoop, fetchLoop_eq_map api rest (acc ++ [fetchRecord api pn])]
    simp

theorem foldinsert_dget?_ne (k : String) :
    ∀ (ps : List Parameter) (d : Dict),
      (∀ prm ∈ ps, prm.parameterText ≠ k) →
      dget? (ps.foldl (fun d e => dinsert d e.parameterText e.valueText) d) k = dget? d k
  | [], d, _ => rfl
  | p :: t, d, h => by
    rw [List.foldl_cons,
      foldinsert_dget?_ne k t (dinsert d p.parameterText p.valueText)
        (fun prm hm => h prm (List.mem_cons_of_mem p hm)),
      dget?_insert_ne d p.parameterText p.valueText k
        (fun hc => h p (List.mem_cons_self p t) hc.symm)]

theorem foldinsert_isSome (k : String) :
    ∀ (ps : List Parameter) (d : Dict),
      (dget? d k).isSome →
      (dget? (ps.foldl (fun d e => dinsert d e.parameterText e.valueText) d) k).isSome
  | [], _, h => h
  | p :: t, d, h => by
    rw [List.foldl_cons]
    exact foldinsert_isSome k t (dinsert d p.parameterText p.valueText)
      (dget?_insert_isSome d p.parameterText p.valueText k h)

theorem fetchRecord_partNumber (api : String → CatalogResponse) (pn : String) :
    (dget? (fetchRecord api pn) "Part Number").isSome = true ∧
    ((∀ prm ∈ usedParameters (api pn), prm.parameterText ≠ "Part Number") →
      dget? (fetchRecord api pn) "Part Number" = some (pyUpper pn)) := by
  by_cases hst : (api pn).statusCode ≠ 200
  · constructor
    · simp [fetchRecord, hst, dget?, List.find?]
    · intro _
      simp [fetchRecord, hst, dget?, List.find?]
  · rcases hpr : (api pn).products with _ | ⟨_ | ⟨product, more⟩⟩
    · constructor
      · simp [fetchRecord, hst, hpr, dget?, List.find?]
      · intro _
        simp [fetchRecord, hst, hpr, dget?, List.find?]
    · constructor
      · simp [fetchRecord, hst, hpr, dget?, List.find?]
      · intro _
        simp [fetchRecord, hst, hpr, dget?, List.find?]
    · have hbase : dget?
          [("Part Number", pyUpper pn), ("Mfr", product.manufacturerName),
            ("Part Status", product.productStatus)] "Part Number"
          = some (pyUpper pn) := rfl
      have hrec : fetchRecord api pn
          = product.parameters.foldl (fun d prm => dinsert d prm.parameterText prm.valueText)
              [("Part Number", pyUpper pn), ("Mfr", product.manufacturerName),
                ("Part Status", product.productStatus)] := by
        simp [fetchRecord, hst, hpr]
      have hused : usedParameters (api pn) = product.parameters := by
        simp [usedParameters, hst, hpr]
      constructor
      · rw [hrec]
        exact foldinsert_isSome "Part Number" product.parameters _ (by rw [hbase]; rfl)
      · intro hnone
        rw [hrec, foldinsert_dget?_ne "Part Number" product.parameters _
          (by rw [hused] at hnone; exact hnone), hbase]

/-- C6: with a successful token exchange and a non-empty part-number
list, `fetch_digikey_data` returns the filename
`output_filename + ".json"` and the array written to it holds exactly
one attribute mapping per input part number, in input order (the
`i`-th record is the record computed from the `i`-th part number). -/
theorem C6_one_record_per_part (tokenStatus : Nat) (tokenText : String)
    (api : String → CatalogResponse) (part_numbers : List String)
    (output_filename : String) (ht : tokenStatus = 200) (hne : part_numbers ≠ []) :
    fetch_digikey_data tokenStatus tokenText api part_numbers output_filename
      = .ok (output_filename ++ ".json", part_numbers.map (fetchRecord api)) ∧
    (part_numbers.map (fetchRecord api)).length = part_numbers.length ∧
    ∀ i : Nat, (part_numbers.map (fetchRecord api))[i]?
      = (part_numbers[i]?).map (fetchRecord api) := by
  refine ⟨?_, by simp, fun i => by simp⟩
  subst ht
  simp [fetch_digikey_data, fetchLoop_eq_map]

/-- C6 witness: one part number whose search fails with a 404 yields
one error record, written to `o.json`. -/
theorem C6_one_record_per_part_witness :
    fetch_digikey_data 200 "" (fun _ => ⟨404, "x", none⟩) ["a"] "o"
      = .ok ("o.json", [[("Part Number", "A"), ("Error", "Search error: x")]]) := by
  exact (C6_one_record_per_part 200 "" (fun _ => ⟨404, "x", none⟩) ["a"] "o" rfl
    (by simp)).1.trans rfl

/-- C1 (amended): `fetch_digikey_data` degrades a missing or empty
`Products` field to the `"No product found"` placeholder record and
keeps processing (one record per part, batch length preserved);
`Web_inteface`, by contrast, silently appends nothing for an empty
`Products` list (its `miss.append` is a no-op) and, for a missing
`Products` field, raises `KeyError` out of the loop, aborting the
remaining batch into the outer error handler. -/
theorem C1_products_degradation (api1 : String → CatalogResponse)
    (api2 : String → Except String CatalogResponse) (r : CatalogResponse)
    (pn : String) (rest : List String) (acc : List Dict) (fin_11 : List Dict) :
    (fetchLoop api1 (pn :: rest) acc).length = acc.length + (rest.length + 1) ∧
    ((api1 pn).statusCode = 200 →
      ((api1 pn).products = none ∨ (api1 pn).products = some []) →
      fetchLoop api1 (pn :: rest) acc
        = fetchLoop api1 rest
            (acc ++ [[("Part Number", pyUpper pn), ("Error", "No product found")]])) ∧
    (api2 pn = .ok r → r.statusCode = 200 → r.products = some [] →
      webLoop api2 (pn :: rest) fin_11 = webLoop api2 rest fin_11) ∧
    (api2 pn = .ok r → r.statusCode = 200 → r.products = none →
      webLoop api2 (pn :: rest) fin_11 = .error "KeyError: 'Products'") := by
  refine ⟨?_, ?_, ?_, ?_⟩
  · rw [fetchLoop_eq_map]
    simp
  · intro h200 hprod
    have hrec : fetchRecord api1 pn
        = [("Part Number", pyUpper pn), ("Error", "No product found")] := by
      rcases hprod with h | h <;> simp [fetchRecord, h200, h]
    calc fetchLoop api1 (pn :: rest) acc
        = fetchLoop api1 rest (acc ++ [fetchRecord api1 pn]) := rfl
      _ = fetchLoop api1 rest
            (acc ++ [[("Part Number", pyUpper pn), ("Error", "No product found")]]) := by
          rw [hrec]
  · intro h hst hpr
    simp [webLoop, h, hst, hpr]
  · intro h hst hpr
    simp [webLoop, h, hst, hpr]

/-- C1 witness: a part whose catalog response is 200 with an empty
product list gets the placeholder record in `fetch_digikey_data` and
is skipped by `Web_inteface`'s loop. -/
theorem C1_products_degradation_witness :
    fetchLoop (fun _ => ⟨200, "", some []⟩) ["p"] []
      = [[("Part Number", "P"), ("Error", "No product found")]] ∧
    webLoop (fun _ => .ok ⟨200, "", some []⟩) ["a"] [] = .ok [] := by
  constructor
  · exact ((C1_products_degradation (fun _ => ⟨200, "", some []⟩)
      (fun _ => .ok ⟨200, "", some []⟩) ⟨200, "", some []⟩ "p" [] [] []).2.1 rfl
      (Or.inr rfl)).trans rfl
  · exact ((C1_products_degradation (fun _ => ⟨200, "", some []⟩)
      (fun _ => .ok ⟨200, "", some []⟩) ⟨200, "", some []⟩ "a" [] [] []).2.2.1 rfl rfl
      rfl).trans rfl

/-- C1 counterexample: the claim fails on `Web_inteface`.  With part
numbers `"A,B"` where `A`'s response has an empty `Products` list,
the finished table has a column only for `B` — no placeholder record
or inline message for `A` was appended; and when `Products` is
missing from the response, the whole batch aborts into the error
string `"ERRor :KeyError: 'Products'"` instead of continuing. -/
theorem C1_counterexample :
    Web_inteface 200
      (fun p => .ok (if p = "A" then ⟨200, "", some []⟩
        else ⟨200, "", some [⟨"TI", "Active", []⟩]⟩)) "A,B"
      = .inl [("Attribute", ["Part Number", "Mfr", "Part Status"]),
          ("B", ["B", "TI", "Active"])] ∧
    (webParts "A,B").length = 2 ∧
    Web_inteface 200 (fun _ => .ok ⟨200, "", none⟩) "A,B"
      = .inr "ERRor :KeyError: 'Products'" := by
  exact ⟨rfl, rfl, rfl⟩

/-- C9 (amended): every record `fetch_digikey_data` appends carries
the key `"Part Number"`; its value is the upper-cased input part
number except when the matched product itself lists a parameter named
`"Part Number"`, whose `ValueText` then overwrites it. -/
theorem C9_part_number_key (api : String → CatalogResponse)
    (part_numbers : List String) :
    fetchLoop api part_numbers [] = part_numbers.map (fetchRecord api) ∧
    ∀ pn ∈ part_numbers,
      (dget? (fetchRecord api pn) "Part Number").isSome = true ∧
      ((∀ prm ∈ usedParameters (api pn), prm.parameterText ≠ "Part Number") →
        dget? (fetchRecord api pn) "Part Number" = some (pyUpper pn)) := by
  exact ⟨by rw [fetchLoop_eq_map]; rfl, fun pn _ => fetchRecord_partNumber api pn⟩

/-- C9 witness: a record with an ordinary parameter keeps the
upper-cased part number under `"Part Number"`. -/
theorem C9_part_number_key_witness :
    dget? (fetchRecord (fun _ => ⟨200, "", some [⟨"TI", "Active", [⟨"Res", "5"⟩]⟩]⟩) "x")
      "Part Number" = some "X" := by
  exact ((C9_part_number_key (fun _ => ⟨200, "", some [⟨"TI", "Active", [⟨"Res", "5"⟩]⟩]⟩)
    ["x"]).2 "x" (by simp)).2 (by
      intro prm hm
      simp [usedParameters] at hm
      rw [hm]
      decide)

/-- C9 counterexample: a catalog parameter whose `ParameterText` is
itself `"Part Number"` overwrites the record's `"Part Number"` entry,
so the value is no longer the upper-cased input part number. -/
theorem C9_counterexample :
    dget? (fetchRecord
      (fun _ => ⟨200, "", some [⟨"TI", "Active", [⟨"Part Number", "FAKE"⟩]⟩]⟩) "abc")
      "Part Number" = some "FAKE" ∧
    ("FAKE" : String) ≠ pyUpper "abc" ∧
    fetchLoop (fun _ => ⟨200, "", some [⟨"TI", "Active", [⟨"Part Number", "FAKE"⟩]⟩]⟩)
      ["abc"] []
      = [[("Part Number", "FAKE"), ("Mfr", "TI"), ("Part Status", "Active")]] := by
  exact ⟨rfl, by decide, rfl⟩

theorem isPrefixChars_self : ∀ l : List Char, isPrefixChars l l = true
  | [] => rfl
  | a :: as => by simp [isPrefixChars, isPrefixChars_self as]

theorem subChars_suffix (s : List Char) :
    ∀ pre : List Char, subChars s (pre ++ s) = true
  | [] => by
    cases s with
    | nil => rfl
    | cons a as => simp [subChars, isPrefixChars_self]
  | c :: pre => by simp [subChars, subChars_suffix s pre]

theorem strIn_suffix (pre s : String) : strIn s (pre ++ s) = true := by
  unfold strIn
  have : (pre ++ s).toList = pre.toList ++ s.toList := String.data_append pre s
  rw [this]
  exact subChars_suffix s.toList pre.toList

/-- C7: any exception raised inside the body of `Web_inteface` is not
propagated: the function returns the string `"ERRor :" + str(e)`,
which contains the exception text; when no part yields a spec record
it returns the empty table; and the per-file streamlit loop isolates
each file behind its own handler, reporting the exception text inline
and producing exactly one outcome per file. -/
theorem C7_broad_exception_handler (tokenStatus : Nat)
    (api : String → Except String CatalogResponse) (lis1 : String) (e : String)
    (analyze : String → Except String (List (String × List String)))
    (json_files : List String) (fname : String) (exc : String) :
    (webBody tokenStatus api lis1 = .error e →
      Web_inteface tokenStatus api lis1 = .inr ("ERRor :" ++ e) ∧
      strIn e ("ERRor :" ++ e) = true) ∧
    (webBody tokenStatus api lis1 = .ok [] →
      Web_inteface tokenStatus api lis1 = .inl emptyTable) ∧
    (streamlitFileLoop analyze json_files).length = json_files.length ∧
    (analyze fname = .error exc →
      streamlitPerFile analyze fname
        = .inr ("Error analyzing " ++ fname ++ ": " ++ exc)) := by
  refine ⟨?_, ?_, ?_, ?_⟩
  · intro h
    unfold Web_inteface
    rw [h]
    exact ⟨rfl, strIn_suffix "ERRor :" e⟩
  · intro h
    unfold Web_inteface
    rw [h]
  · simp [streamlitFileLoop]
  · intro h
    simp [streamlitPerFile, h]

/-- C7 witness: a raising search call inside the loop is caught and
returned as an error string; a raising per-file analysis is reported
inline. -/
theorem C7_broad_exception_handler_witness :
    Web_inteface 200 (fun _ => .error "ConnectionError: boom") "A"
      = .inr "ERRor :ConnectionError: boom" ∧
    streamlitPerFile (fun _ => .error "x") "f.json"
      = .inr "Error analyzing f.json: x" := by
  constructor
  · exact (((C7_broad_exception_handler 200 (fun _ => .error "ConnectionError: boom") "A"
      "ConnectionError: boom" (fun _ => .error "x") [] "f.json" "x").1 rfl).1).trans rfl
  · exact ((C7_broad_exception_handler 200 (fun _ => .error "ConnectionError: boom") "A"
      "ConnectionError: boom" (fun _ => .error "x") [] "f.json" "x").2.2.2 rfl).trans rfl

theorem dedup_go_nodup :
    ∀ (l acc : List String), acc.Nodup →
      (l.foldl (fun acc a => if acc.contains a then acc else acc ++ [a]) acc).Nodup
  | [], _, h => h
  | a :: t, acc, h => by
    rw [List.foldl_cons]
    by_cases hc : acc.contains a = true
    · rw [if_pos hc]
      exact dedup_go_nodup t acc h
    · rw [if_neg hc]
      refine dedup_go_nodup t (acc ++ [a]) ?_
      have hmem : a ∉ acc := by
        intro hm
        exact hc (List.elem_iff.mpr hm)
      simp [List.nodup_append, h, hmem]

theorem dedup_go_mem :
    ∀ (l acc : List String) (x : String),
      x ∈ l.foldl (fun acc a => if acc.contains a then acc else acc ++ [a]) acc
        ↔ x ∈ acc ∨ x ∈ l
  | [], acc, x => by simp
  | a :: t, acc, x => by
    rw [List.foldl_cons]
    by_cases hc : acc.contains a = true
    · rw [if_pos hc, dedup_go_mem t acc x]
      have ha : a ∈ acc := List.elem_iff.mp hc
      constructor
      · rintro (h | h)
        · exact Or.inl h
        · exact Or.inr (List.mem_cons_of_mem a h)
      · rintro (h | h)
        · exact Or.inl h
        · rcases List.mem_cons.mp h with h | h
          · exact Or.inl (h ▸ ha)
          · exact Or.inr h
    · rw [if_neg hc, dedup_go_mem t (acc ++ [a]) x]
      simp [List.mem_cons, or_assoc]
  termination_by l => l.length

theorem dedup_go_sublist :
    ∀ (l acc pfx : List String), acc.Sublist pfx →
      (l.foldl (fun acc a => if acc.contains a then acc else acc ++ [a]) acc).Sublist
        (pfx ++ l)
  | [], _, _, h => by simpa using h
  | a :: t, acc, pfx, h => by
    rw [List.foldl_cons]
    by_cases hc : acc.contains a = true
    · rw [if_pos hc]
      have hstep : acc.Sublist (pfx ++ [a]) :=
        h.trans (List.sublist_append_left pfx [a])
      have := dedup_go_sublist t acc (pfx ++ [a]) hstep
      rwa [List.append_assoc, List.singleton_append] at this
    · rw [if_neg hc]
      have hstep : (acc ++ [a]).Sublist (pfx ++ [a]) :=
        List.Sublist.append h (List.Sublist.refl [a])
      have := dedup_go_sublist t (acc ++ [a]) (pfx ++ [a]) hstep
      rwa [List.append_assoc, List.singleton_append] at this

theorem dedupFirstSeen_nodup (l : List String) : (dedupFirstSeen l).Nodup :=
  dedup_go_nodup l [] List.nodup_nil

theorem mem_dedupFirstSeen (l : List String) (x : String) :
    x ∈ dedupFirstSeen l ↔ x ∈ l := by
  unfold dedupFirstSeen
  rw [dedup_go_mem l [] x]
  simp

theorem dedupFirstSeen_sublist (l : List String) : (dedupFirstSeen l).Sublist l :=
  dedup_go_sublist l [] [] (List.Sublist.refl [])

theorem mem_concat_keys :
    ∀ (fin_11 : List Dict) (acc : List String) (x : String),
      x ∈ fin_11.foldl (fun acc d => acc ++ dkeys d) acc
        ↔ x ∈ acc ∨ ∃ d ∈ fin_11, x ∈ dkeys d
  | [], acc, x => by simp
  | d :: t, acc, x => by
    rw [List.foldl_cons, mem_concat_keys t (acc ++ dkeys d) x]
    simp [List.mem_append, or_assoc]

theorem colInsert_length_le (d : List (String × List String)) (k : String)
    (v : List String) : (colInsert d k v).length ≤ d.length + 1 := by
  unfold colInsert
  by_cases hany : d.any (fun p => p.1 = k) = true
  · rw [if_pos hany, List.length_map]
    exact Nat.le_succ _
  · rw [if_neg hany, List.length_append]
    exact Nat.le_refl _

theorem mem_colInsert (d : List (String × List String)) (k : String)
    (v : List String) (col : String × List String) (h : col ∈ colInsert d k v) :
    col ∈ d ∨ col = (k, v) := by
  unfold colInsert at h
  by_cases hany : d.any (fun p => p.1 = k) = true
  · rw [if_pos hany] at h
    rcases List.mem_map.mp h with ⟨p, hp, heq⟩
    by_cases hpk : p.1 = k
    · rw [if_pos hpk] at heq
      exact Or.inr heq.symm
    · rw [if_neg hpk] at heq
      exact Or.inl (heq ▸ hp)
  · rw [if_neg hany] at h
    rcases List.mem_append.mp h with h | h
    · exact Or.inl h
    · exact Or.inr (List.mem_singleton.mp h)

theorem colInsert_head_key (a : String × List String)
    (rest : List (String × List String)) (k : String) (v : List String) :
    ∃ w rest2, colInsert (a :: rest) k v = (a.1, w) :: rest2 := by
  unfold colInsert
  by_cases hany : (a :: rest).any (fun p => p.1 = k) = true
  · rw [if_pos hany, List.map_cons]
    by_cases hak : a.1 = k
    · rw [if_pos hak]
      exact ⟨v, _, by rw [hak]⟩
    · rw [if_neg hak]
      exact ⟨a.2, _, rfl⟩
  · rw [if_neg hany, List.cons_append]
    exact ⟨a.2, _, rfl⟩

theorem buildColumns_length_le (attrs : List String) :
    ∀ (ds : List Dict) (idx : Nat) (used : List (String × Nat))
      (data : List (String × List String)),
      (buildColumns attrs ds idx used data).length ≤ data.length + ds.length
  | [], _, _, data => Nat.le_add_right _ _
  | specs :: rest, idx, used, data => by
    have h1 := buildColumns_length_le attrs rest (idx + 1)
      (columnName used (dgetD specs "Part Number"
        ("Component " ++ toString (idx + 1)))).2
      (colInsert data
        (columnName used (dgetD specs "Part Number"
          ("Component " ++ toString (idx + 1)))).1
        (attrs.map (fun attr => dgetD specs attr "-")))
    have h2 := colInsert_length_le data
      (columnName used (dgetD specs "Part Number"
        ("Component " ++ toString (idx + 1)))).1
      (attrs.map (fun attr => dgetD specs attr "-"))
    show (buildColumns attrs rest (idx + 1)
      (columnName used (dgetD specs "Part Number"
        ("Component " ++ toString (idx + 1)))).2
      (colInsert data
        (columnName used (dgetD specs "Part Number"
          ("Component " ++ toString (idx + 1)))).1
        (attrs.map (fun attr => dgetD specs attr "-")))).length
      ≤ data.length + (rest.length + 1)
    omega

theorem buildColumns_mem (attrs : List String) :
    ∀ (ds : List Dict) (idx : Nat) (used : List (String × Nat))
      (data : List (String × List String)) (col : String × List String),
      col ∈ buildColumns attrs ds idx used data →
      col ∈ data ∨ ∃ specs ∈ ds, col.2 = attrs.map (fun a => dgetD specs a "-")
  | [], _, _, data, col, h => Or.inl h
  | specs :: rest, idx, used, data, col, h => by
    rcases buildColumns_mem attrs rest (idx + 1)
      (columnName used (dgetD specs "Part Number"
        ("Component " ++ toString (idx + 1)))).2
      (colInsert data
        (columnName used (dgetD specs "Part Number"
          ("Component " ++ toString (idx + 1)))).1
        (attrs.map (fun attr => dgetD specs attr "-"))) col h with hd | hs
    · rcases mem_colInsert _ _ _ col hd with hd | hd
      · exact Or.inl hd
      · exact Or.inr ⟨specs, List.mem_cons_self specs rest, by rw [hd]⟩
    · rcases hs with ⟨s, hmem, hcells⟩
      exact Or.inr ⟨s, List.mem_cons_of_mem specs hmem, hcells⟩

theorem buildColumns_head_key (attrs : List String) :
    ∀ (ds : List Dict) (idx : Nat) (used : List (String × Nat)) (k : String)
      (w : List String) (rest : List (String × List String)),
      ∃ w2 rest2, buildColumns attrs ds idx used ((k, w) :: rest) = (k, w2) :: rest2
  | [], _, _, k, w, rest => ⟨w, rest, rfl⟩
  | specs :: ds, idx, used, k, w, rest => by
    rcases colInsert_head_key (k, w) rest
      (columnName used (dgetD specs "Part Number"
        ("Component " ++ toString (idx + 1)))).1
      (attrs.map (fun attr => dgetD specs attr "-")) with ⟨w1, rest1, heq⟩
    have step : buildColumns attrs (specs :: ds) idx used ((k, w) :: rest)
        = buildColumns attrs ds (idx + 1)
            (columnName used (dgetD specs "Part Number"
              ("Component " ++ toString (idx + 1)))).2
            (colInsert ((k, w) :: rest)
              (columnName used (dgetD specs "Part Number"
                ("Component " ++ toString (idx + 1)))).1
              (attrs.map (fun attr => dgetD specs attr "-"))) := rfl
    rw [step, heq]
    exact buildColumns_head_key attrs ds (idx + 1) _ k w1 rest1

theorem lexLe_total : ∀ as bs : List Char, lexLe as bs = true ∨ lexLe bs as = true
  | [], _ => Or.inl rfl
  | _ :: _, [] => Or.inr rfl
  | a :: as, b :: bs => by
    by_cases hab : a = b
    · subst hab
      rcases lexLe_total as bs with h | h
      · exact Or.inl (by simp [lexLe, h])
      · exact Or.inr (by simp [lexLe, h])
    · rcases lt_or_gt_of_ne hab with hlt | hlt
      · exact Or.inl (by simp [lexLe, hab, hlt])
      · exact Or.inr (by simp [lexLe, Ne.symm hab, hlt])

theorem lexLe_trans :
    ∀ as bs cs : List Char, lexLe as bs = true → lexLe bs cs = true → lexLe as cs = true
  | [], _, _, _, _ => rfl
  | a :: as, [], cs, h1, _ => by simp [lexLe] at h1
  | a :: as, b :: bs, [], _, h2 => by simp [lexLe] at h2
  | a :: as, b :: bs, c :: cs, h1, h2 => by
    by_cases hab : a = b <;> by_cases hbc : b = c
    · subst hab hbc
      simp only [lexLe, if_pos rfl] at h1 h2 ⊢
      exact lexLe_trans as bs cs h1 h2
    · subst hab
      simp only [lexLe, if_pos rfl] at h1
      simp only [lexLe, if_neg hbc] at h2
      have hac : ¬ a = c := hbc
      simp only [lexLe, if_neg hac]
      exact h2
    · subst hbc
      simp only [lexLe, if_neg hab] at h1
      have hac : ¬ a = b := hab
      simp only [lexLe, if_neg hac]
      exact h1
    · simp only [lexLe, if_neg hab] at h1
      simp only [lexLe, if_neg hbc] at h2
      have h1' : a < b := of_decide_eq_true h1
      have h2' : b < c := of_decide_eq_true h2
      have hac : a < c := lt_trans h1' h2'
      have hane : ¬ a = c := ne_of_lt hac
      simp [lexLe, hane, hac]

theorem strLe_total (a b : String) : strLe a b = true ∨ strLe b a = true :=
  lexLe_total a.toList b.toList

theorem strLe_trans (a b c : String) (h1 : strLe a b = true) (h2 : strLe b c = true) :
    strLe a c = true :=
  lexLe_trans a.toList b.toList c.toList h1 h2

theorem mem_sortInsert (x y : String) :
    ∀ l : List String, y ∈ sortInsert x l ↔ y = x ∨ y ∈ l
  | [] => by simp [sortInsert]
  | z :: zs => by
    by_cases h : strLe x z = true
    · simp [sortInsert, h, List.mem_cons]
    · simp only [sortInsert, if_neg h, List.mem_cons, mem_sortInsert x y zs]
      tauto

theorem sortInsert_perm (x : String) :
    ∀ l : List String, (sortInsert x l).Perm (x :: l)
  | [] => List.Perm.refl _
  | z :: zs => by
    by_cases h : strLe x z = true
    · rw [sortInsert, if_pos h]
    · rw [sortInsert, if_neg h]
      exact (List.Perm.cons z (sortInsert_perm x zs)).trans (List.Perm.swap x z zs)

theorem insertionSort_perm : ∀ l : List String, (insertionSort l).Perm l
  | [] => List.Perm.refl _
  | x :: xs =>
    (sortInsert_perm x (insertionSort xs)).trans (List.Perm.cons x (insertionSort_perm xs))

theorem sorted_sortInsert (x : String) :
    ∀ l : List String, List.Pairwise (fun a b => strLe a b = true) l →
      List.Pairwise (fun a b => strLe a b = true) (sortInsert x l)
  | [], _ => by simp [sortInsert]
  | z :: zs, h => by
    rcases List.pairwise_cons.mp h with ⟨hz, hzs⟩
    by_cases hxz : strLe x z = true
    · rw [sortInsert, if_pos hxz]
      refine List.pairwise_cons.mpr ⟨?_, h⟩
      intro b hb
      rcases List.mem_cons.mp hb with hb | hb
      · exact hb ▸ hxz
      · exact strLe_trans x z b hxz (hz b hb)
    · rw [sortInsert, if_neg hxz]
      refine List.pairwise_cons.mpr ⟨?_, sorted_sortInsert x zs hzs⟩
      intro b hb
      rcases (mem_sortInsert x b zs).mp hb with hb | hb
      · rw [hb]
        rcases strLe_total x z with hc | hc
        · exact absurd hc hxz
        · exact hc
      · exact hz b hb

theorem insertionSort_sorted :
    ∀ l : List String, List.Pairwise (fun a b => strLe a b = true) (insertionSort l)
  | [] => List.Pairwise.nil
  | x :: xs => sorted_sortInsert x (insertionSort xs) (insertionSort_sorted xs)

/-- C2 (amended): the `Web_inteface` comparison table (digikey.py) is
the `comparison_data` dict: it starts with the `Attribute` entry — its
key stays first — holding the distinct attribute rows in first-seen
order (duplicate-free, a subsequence of the concatenated key lists,
containing exactly the observed keys); every other entry holds, for
some record, `specs.get(attr, "-")` down those rows, so `"-"` fills
every absent attribute; but each record is added by a dict assignment
under its disambiguated column name, so a name collision (or a part
named `"Attribute"`) overwrites an existing column and the table can
have fewer value columns than records — the column count is only
bounded by one per record plus the label entry; the streamlit
per-file table (streamlit_client.py) furthermore orders its attribute
rows sorted lexicographically (`sorted(set(...))`), not in first-seen
order. -/
theorem C2_table_layout (fin_11 json_content : List Dict) (d : Dict) (attr : String) :
    allAttributes fin_11
      = dedupFirstSeen (fin_11.foldl (fun acc d => acc ++ dkeys d) []) ∧
    (allAttributes fin_11).Nodup ∧
    (∀ a, a ∈ allAttributes fin_11 ↔ ∃ d2 ∈ fin_11, a ∈ dkeys d2) ∧
    (allAttributes fin_11).Sublist
      (fin_11.foldl (fun acc d => acc ++ dkeys d) []) ∧
    (∃ cells, (buildTable fin_11).head? = some ("Attribute", cells)) ∧
    (buildTable fin_11).length ≤ fin_11.length + 1 ∧
    (∀ col ∈ buildTable fin_11,
      col = ("Attribute", allAttributes fin_11) ∨
      ∃ specs ∈ fin_11,
        col.2 = (allAttributes fin_11).map (fun a => dgetD specs a "-")) ∧
    (attr ∉ dkeys d → dgetD d attr "-" = "-") ∧
    (streamlitParams json_content).Nodup ∧
    (∀ a, a ∈ streamlitParams json_content ↔ ∃ d2 ∈ json_content, a ∈ dkeys d2) ∧
    List.Pairwise (fun a b => strLe a b = true) (streamlitParams json_content) := by
  refine ⟨rfl, dedupFirstSeen_nodup _, ?_, dedupFirstSeen_sublist _, ?_, ?_, ?_,
    fun h => dgetD_of_not_mem_keys d attr "-" h, ?_, ?_, insertionSort_sorted _⟩
  · intro a
    show a ∈ allAttributes fin_11 ↔ _
    unfold allAttributes
    rw [mem_dedupFirstSeen, mem_concat_keys]
    simp
  · rcases buildColumns_head_key (allAttributes fin_11) fin_11 0 [] "Attribute"
      (allAttributes fin_11) [] with ⟨w2, rest2, heq⟩
    exact ⟨w2, by rw [buildTable, heq]; rfl⟩
  · have h := buildColumns_length_le (allAttributes fin_11) fin_11 0 []
      [("Attribute", allAttributes fin_11)]
    simp only [List.length_cons, List.length_nil] at h
    rw [buildTable]
    omega
  · intro col hcol
    rcases buildColumns_mem (allAttributes fin_11) fin_11 0 []
      [("Attribute", allAttributes fin_11)] col hcol with hd | hs
    · exact Or.inl (List.mem_singleton.mp hd)
    · exact Or.inr hs
  · exact ((insertionSort_perm _).nodup_iff).mpr (dedupFirstSeen_nodup _)
  · intro a
    unfold streamlitParams
    rw [(insertionSort_perm _).mem_iff, mem_dedupFirstSeen, mem_concat_keys]
    simp

/-- C2 witness: on two concrete records the digikey.py table has
first-seen attribute rows, the `Attribute` entry first, at most one
value column per record, and `"-"` in the cell of an absent
attribute. -/
theorem C2_table_layout_witness :
    allAttributes [[("Part Number", "B"), ("X", "1")], [("A", "x")]]
      = ["Part Number", "X", "A"] ∧
    (buildTable [[("Part Number", "B"), ("X", "1")], [("A", "x")]]).length ≤ 3 ∧
    (buildTable [[("Part Number", "B"), ("X", "1")], [("A", "x")]]).head?
      = some ("Attribute", ["Part Number", "X", "A"]) ∧
    dgetD [("A", "x")] "X" "-" = "-" := by
  have h := C2_table_layout [[("Part Number", "B"), ("X", "1")], [("A", "x")]] []
    [("A", "x")] "X"
  exact ⟨h.1.trans rfl, h.2.2.2.2.2.1, rfl,
    h.2.2.2.2.2.2.2.1 (by decide)⟩

/-- C2 counterexample: the claim fails twice on the code.  One value
column per identifier fails on `Web_inteface`: parts `"B,B,B (2)"`
(all found) generate column names `B`, `B (2)`, `B (2)` — the third
part's own name collides with the second's suffixed name and the dict
assignment overwrites it — leaving 2 value columns (3 entries with
the `Attribute` label) for 3 identifiers; and first-seen row order
fails on the streamlit builder, which sorts the attribute set: on
records whose first-seen key order is `["Part Number", "A"]`, the
built `Parameter` column is `["A", "Part Number"]`. -/
theorem C2_counterexample :
    Web_inteface 200 (fun _ => .ok ⟨200, "", some [⟨"TI", "Active", []⟩]⟩) "B,B,B (2)"
      = .inl [("Attribute", ["Part Number", "Mfr", "Part Status"]),
          ("B", ["B", "TI", "Active"]),
          ("B (2)", ["B (2)", "TI", "Active"])] ∧
    (webParts "B,B,B (2)").length = 3 ∧
    ([("Attribute", ["Part Number", "Mfr", "Part Status"]),
      ("B", ["B", "TI", "Active"]),
      ("B (2)", ["B (2)", "TI", "Active"])] : List (String × List String)).length
      = 3 ∧
    streamlitParams [[("Part Number", "B")], [("A", "x")]] = ["A", "Part Number"] ∧
    dedupFirstSeen ([[("Part Number", "B")], [("A", "x")]].foldl
      (fun acc d => acc ++ dkeys d) []) = ["Part Number", "A"] ∧
    (["A", "Part Number"] : List String) ≠ ["Part Number", "A"] := by
  exact ⟨rfl, rfl, rfl, rfl, rfl, by decide⟩

theorem matchOne_spec (m : Dict) (param : String) :
    (∃ kv, kv ∈ m ∧ keyMatches kv.1 param = true ∧ matchOne m param = kv.2) ∨
    (matchOne m param = "-" ∧ ∀ kv ∈ m, keyMatches kv.1 param = false) := by
  unfold matchOne
  rcases h1 : dget? m param with _ | v
  · rcases h2 : m.find? (fun kv => pyLower kv.1 = pyLower param) with _ | kv2
    · rcases h3 : m.find? (fun kv =>
          strIn (pyLower kv.1) (pyLower param) || strIn (pyLower param) (pyLower kv.1))
          with _ | kv3
      · right
        refine ⟨by simp [h1, h2, h3], fun kv hm => ?_⟩
        have hfind1 : m.find? (fun p => p.1 = param) = none := by
          unfold dget? at h1
          exact Option.map_eq_none'.mp h1
        have e1 : (decide (kv.1 = param)) = false :=
          Bool.eq_false_iff.mpr (List.find?_eq_none.mp hfind1 kv hm)
        have e2 : (decide (pyLower kv.1 = pyLower param)) = false :=
          Bool.eq_false_iff.mpr (List.find?_eq_none.mp h2 kv hm)
        have e3 : (strIn (pyLower kv.1) (pyLower param)
            || strIn (pyLower param) (pyLower kv.1)) = false :=
          Bool.eq_false_iff.mpr (List.find?_eq_none.mp h3 kv hm)
        rcases Bool.or_eq_false_iff.mp e3 with ⟨e3a, e3b⟩
        simp [keyMatches, e1, e2, e3a, e3b]
      · left
        refine ⟨kv3, List.mem_of_find?_eq_some h3, ?_, by simp [h1, h2, h3]⟩
        have hor : (strIn (pyLower kv3.1) (pyLower param)
            || strIn (pyLower param) (pyLower kv3.1)) = true := by
          have hp := List.find?_some h3
          exact hp
        rcases Bool.or_eq_true_iff.mp hor with hc | hc <;> simp [keyMatches, hc]
    · left
      refine ⟨kv2, List.mem_of_find?_eq_some h2, ?_, by simp [h1, h2]⟩
      have hc : pyLower kv2.1 = pyLower param := by
        have hp := List.find?_some h2
        exact of_decide_eq_true hp
      simp [keyMatches, hc]
  · left
    have h1' := h1
    unfold dget? at h1'
    rcases Option.map_eq_some'.mp h1' with ⟨kv, hfind, hv⟩
    refine ⟨kv, List.mem_of_find?_eq_some hfind, ?_, ?_⟩
    · have hc : kv.1 = param := by
        have hp := List.find?_some hfind
        exact of_decide_eq_true hp
      simp [keyMatches, hc]
    · simp only [h1]
      exact hv.symm

/-- C10: for every justification text and every parameter list, the
parsed justification list has exactly the length of the parameter
list, and each entry is either the map value selected for that
parameter by the exact / case-insensitive / substring lookup chain,
or `"-"` when no key of the parsed map matches the parameter. -/
theorem C10_justification_alignment (justification_text : String)
    (all_params : List String) :
    (parse_llm_justifications justification_text all_params).length
      = all_params.length ∧
    ∀ i : Nat, ∀ param : String, all_params[i]? = some param →
      (parse_llm_justifications justification_text all_params)[i]?
        = some (matchOne (parseJustMap justification_text) param) ∧
      ((∃ kv, kv ∈ parseJustMap justification_text ∧
          keyMatches kv.1 param = true ∧
          matchOne (parseJustMap justification_text) param = kv.2) ∨
        (matchOne (parseJustMap justification_text) param = "-" ∧
          ∀ kv ∈ parseJustMap justification_text, keyMatches kv.1 param = false)) := by
  refine ⟨by simp [parse_llm_justifications], fun i param h => ⟨?_, ?_⟩⟩
  · simp [parse_llm_justifications, h]
  · exact matchOne_spec (parseJustMap justification_text) param

/-- C10 witness: on a one-row markdown table, the matching parameter
gets its justification and an unrelated parameter gets `"-"`. -/
theorem C10_justification_alignment_witness :
    (parse_llm_justifications
      "| Parameter | Justification |\n|---|---|\n| Voltage | fine |"
      ["Voltage", "Weight"]).length = 2 ∧
    (parse_llm_justifications
      "| Parameter | Justification |\n|---|---|\n| Voltage | fine |"
      ["Voltage", "Weight"])[0]? = some "fine" ∧
    (parse_llm_justifications
      "| Parameter | Justification |\n|---|---|\n| Voltage | fine |"
      ["Voltage", "Weight"])[1]? = some "-" := by
  have h := C10_justification_alignment
    "| Parameter | Justification |\n|---|---|\n| Voltage | fine |"
    ["Voltage", "Weight"]
  exact ⟨h.1.trans rfl, ((h.2 0 "Voltage" rfl).1).trans rfl,
    ((h.2 1 "Weight" rfl).1).trans rfl⟩
